import Mathlib

/-!
# Tor_scraper: a shallow embedding of `main.go`

The program reads a list of target URLs, builds an HTTP client that goes through a
SOCKS5 proxy, and fetches every target once, writing one artifact file and one log
line per target.

Go strings are `String`, byte slices are `List UInt8`, Go `error` values are their
message text.  Everything the program asks of the outside world (the file system,
the proxy, the network, the clock, `url.Parse`) is a field of `Env`; everything it
does to the outside world is an `Event` of a trace.
-/

namespace TorScraper

/-! ## Strings and formatting (`strings`, `fmt`, `time`, `path/filepath`) -/

/-- The message text of a Go `error`. -/
abbrev GoError := String

/-- A Go byte slice. -/
abbrev Bytes := List UInt8

/-- The conversion `[]byte(s)`: the UTF-8 bytes of a string. -/
def bytesOf (s : String) : Bytes := s.toUTF8.data.toList

/-- Go `unicode.IsSpace`: the Latin-1 spaces `\t \n \v \f \r ' ' U+0085 U+00A0`, and
the code points of the `White_Space` property above Latin-1. -/
def isSpace (c : Char) : Bool :=
  let n := c.toNat
  n == 9 || n == 10 || n == 11 || n == 12 || n == 13 || n == 32 || n == 0x85 || n == 0xA0
    || n == 0x1680 || (0x2000 ≤ n && n ≤ 0x200A) || n == 0x2028 || n == 0x2029
    || n == 0x202F || n == 0x205F || n == 0x3000

/-- Go `strings.TrimLeftFunc(s, unicode.IsSpace)` on the runes of a string. -/
def trimLeft (l : List Char) : List Char := l.dropWhile isSpace

/-- Go `strings.TrimRightFunc(s, unicode.IsSpace)` on the runes of a string. -/
def trimRight (l : List Char) : List Char := (l.reverse.dropWhile isSpace).reverse

/-- Go `strings.TrimSpace`: all leading and trailing white space removed. -/
def TrimSpace (s : String) : String := ⟨trimRight (trimLeft s.data)⟩

/-- Go `strings.ReplaceAll(s, old, new)` for one-character `old` and `new`, the only
use the program makes of it (`"."` to `"_"`). -/
def ReplaceAll (s : String) (old new : Char) : String :=
  ⟨s.data.map fun c => if c = old then new else c⟩

/-- The decimal digits of `n`, most significant first; `fuel` bounds the recursion. -/
def decimalAux : Nat → Nat → List Char
  | 0, _ => []
  | fuel + 1, n =>
    if n < 10 then [Nat.digitChar n]
    else decimalAux fuel (n / 10) ++ [Nat.digitChar (n % 10)]

/-- The verb `%d` of `fmt` on a non-negative integer. -/
def sprintD (n : Nat) : String := ⟨decimalAux (n + 1) n⟩

/-- Left padding with `'0'` up to `width` characters. -/
def zeroPad (width : Nat) (l : List Char) : List Char :=
  List.replicate (width - l.length) '0' ++ l

/-- The verb `%02d` of `fmt` on a non-negative integer: at least two digits. -/
def sprint02d (n : Nat) : String := ⟨zeroPad 2 (decimalAux (n + 1) n)⟩

/-- The verb `%q` of `fmt` on a string in which no character needs an escape: the
string between double quotes. -/
def quoted (s : String) : String := "\"" ++ s ++ "\""

/-- A wall-clock reading: calendar fields and the zone offset in minutes. -/
structure Time where
  year : Nat
  month : Nat
  day : Nat
  hour : Nat
  minute : Nat
  second : Nat
  zoneMinutes : Int
  deriving Repr, DecidableEq

/-- A number in `%0<width>d` form, as the layouts of `time.Format` print fields. -/
def padded (width n : Nat) : String := ⟨zeroPad width (decimalAux (n + 1) n)⟩

/-- The call `t.Format("20060102_150405")`. -/
def formatStamp (t : Time) : String :=
  padded 4 t.year ++ padded 2 t.month ++ padded 2 t.day ++ "_" ++
    padded 2 t.hour ++ padded 2 t.minute ++ padded 2 t.second

/-- The call `t.Format(time.RFC3339)`, layout `2006-01-02T15:04:05Z07:00`. -/
def formatRFC3339 (t : Time) : String :=
  padded 4 t.year ++ "-" ++ padded 2 t.month ++ "-" ++ padded 2 t.day ++ "T" ++
    padded 2 t.hour ++ ":" ++ padded 2 t.minute ++ ":" ++ padded 2 t.second ++
    (if t.zoneMinutes = 0 then "Z"
     else (if t.zoneMinutes < 0 then "-" else "+") ++
       padded 2 (t.zoneMinutes.natAbs / 60) ++ ":" ++ padded 2 (t.zoneMinutes.natAbs % 60))

/-- The call `filepath.Join(dir, name)` for a clean directory name and a file name without a
separator.  The program joins the constant `"output"` with a name made of digits,
a host in which `url.Parse` admits no `/`, a time stamp and a fixed suffix. -/
def filepathJoin (dir name : String) : String := dir ++ "/" ++ name

/-! ## The input file (`os.Open`, `bufio.Scanner`) -/

/-- An opened file as a reader sees it: the bytes it delivers (UTF-8 text), then
end of file (`readErr = none`) or a read error. -/
structure File where
  data : String
  readErr : Option GoError

/-- The constant `bufio.MaxScanTokenSize`, the default bound on the buffer of a `Scanner`. -/
def MaxScanTokenSize : Nat := 64 * 1024

/-- The error `bufio.ErrTooLong`. -/
def ErrTooLong : GoError := "bufio.Scanner: token too long"

/-- The raw lines of the data: a line ends at each `'\n'`, and what follows the last
`'\n'` is a line when it is not empty.  `acc` holds the current line, reversed. -/
def rawLinesAux : List Char → List Char → List (List Char)
  | [], acc => if acc.isEmpty then [] else [acc.reverse]
  | c :: cs, acc => if c = '\n' then acc.reverse :: rawLinesAux cs [] else rawLinesAux cs (c :: acc)

/-- The raw lines of a file content. -/
def rawLines (data : String) : List (List Char) := rawLinesAux data.data []

/-- The helper `dropCR` of `bufio`: one trailing `'\r'` is removed. -/
def dropCR (l : List Char) : List Char :=
  if l.getLast? = some '\r' then l.dropLast else l

/-- The size in bytes of the UTF-8 encoding. -/
def byteLen (l : List Char) : Nat := (l.map Char.utf8Size).sum

/-- The tokens `Scan`/`Text` deliver with the split function `bufio.ScanLines`, and
whether scanning stopped at a line that does not fit the buffer: a line of
`MaxScanTokenSize` bytes or more stops the scanner with `ErrTooLong`. -/
def scanTokens : List (List Char) → List String × Bool
  | [] => ([], false)
  | l :: ls =>
    if MaxScanTokenSize ≤ byteLen l then ([], true)
    else (String.mk (dropCR l) :: (scanTokens ls).1, (scanTokens ls).2)

/-- A `bufio.Scanner` after the loop `for scanner.Scan()`: the texts it delivered and
the value of `scanner.Err()`. -/
structure Scanner where
  texts : List String
  Err : Option GoError

/-- The scanner `bufio.NewScanner(file)` run to the end. -/
def NewScanner (file : File) : Scanner :=
  let r := scanTokens (rawLines file.data)
  ⟨r.1, if r.2 then some ErrTooLong else file.readErr⟩

/-! ## The outside world -/

/-- A parsed URL, `*url.URL`; the program reads only the field `Host`. -/
structure URL where
  Host : String
  deriving Repr, DecidableEq

/-- An HTTP response, `*http.Response`: its status code, and what `io.ReadAll` gives
on its body. -/
structure Response where
  StatusCode : Nat
  Body : Except GoError Bytes

/-- The client `createTorClient` builds: the proxy its transport dials through and
the settings of `http.Transport` and `http.Client`, the durations in seconds. -/
structure Client where
  proxyAddr : String
  DisableKeepAlives : Bool
  MaxIdleConns : Nat
  IdleConnTimeout : Nat
  TLSHandshakeTimeout : Nat
  ExpectContinueTimeout : Nat
  Timeout : Nat
  deriving Repr, DecidableEq

/-- What the outside world answers.  An `Option GoError` is the `error` a call
returns, `none` for `nil`.  The clock and the network are read once per call of
`scrapeTarget` and are indexed by the `index` argument of that call; `now 0` is the
reading `main` takes for the first line of the log. -/
structure Env where
  -- The value of `os.Args`.
  Args : List String
  -- The call `os.Open(path)` and the reads that follow.
  openFile : String → Except GoError File
  -- The call `proxy.SOCKS5("tcp", addr, nil, proxy.Direct)`.
  socks5 : String → Option GoError
  -- The call `dialer.Dial("tcp", addr)` through the proxy.
  dial : String → Option GoError
  -- The call `os.MkdirAll(path, 0755)`.
  mkdirAll : String → Option GoError
  -- The call `os.Create(path)`.
  create : String → Option GoError
  -- The call `url.Parse(rawURL)`; on an error the URL it returns is `nil`.
  urlParse : String → Except GoError URL
  -- The call `time.Now()`.
  now : Nat → Time
  -- The round trip of a GET request for a URL that parses.
  roundTrip : Nat → String → Except GoError Response

/-- What the program does to the outside world, one constructor per call. -/
inductive Event where
  -- Output on the console (`fmt.Print`, `fmt.Println`, `fmt.Printf`).
  | print (text : String)
  -- The call `dialer.Dial("tcp", addr)`.
  | dial (addr : String)
  -- The call `conn.Close()` on the probe connection.
  | connClose
  -- The call `os.MkdirAll(path, 0755)`.
  | mkdirAll (path : String)
  -- The call `os.Create(path)`.
  | create (path : String)
  -- The call `logFile.WriteString(entry)`.
  | logWrite (logFile : String) (entry : String)
  -- The call `logFile.Close()`.
  | logClose (logFile : String)
  -- The call `client.Get(url)`.
  | get (url : String)
  -- The call `resp.Body.Close()`.
  | bodyClose
  -- The call `os.WriteFile(path, data, 0644)`.
  | writeFile (path : String) (data : Bytes)
  deriving DecidableEq

/-- The calls `os.WriteFile` of a trace: path and data, in order. -/
def writesOf : List Event → List (String × Bytes)
  | [] => []
  | .writeFile p d :: es => (p, d) :: writesOf es
  | _ :: es => writesOf es

/-- The entries appended to the log file in a trace, in order. -/
def logsOf : List Event → List String
  | [] => []
  | .logWrite _ e :: es => e :: logsOf es
  | _ :: es => logsOf es

/-- The URLs of the calls `client.Get` of a trace, in order. -/
def getsOf : List Event → List String
  | [] => []
  | .get u :: es => u :: getsOf es
  | _ :: es => getsOf es

/-- The paths of the calls `os.MkdirAll` of a trace. -/
def mkdirsOf : List Event → List String
  | [] => []
  | .mkdirAll p :: es => p :: mkdirsOf es
  | _ :: es => mkdirsOf es

/-- The paths of the calls `os.Create` of a trace. -/
def createsOf : List Event → List String
  | [] => []
  | .create p :: es => p :: createsOf es
  | _ :: es => createsOf es

/-- The console output of a trace. -/
def printsOf : List Event → List String
  | [] => []
  | .print t :: es => t :: printsOf es
  | _ :: es => printsOf es

/-! ## The program -/

/-- The function `readTargetsFile`: the non-blank trimmed lines of the file, or the
error of `os.Open` or of the scanner. -/
def readTargetsFile (env : Env) (filePath : String) : Except GoError (List String) :=
  match env.openFile filePath with
  | .error err => .error ("girdi dosyası açılamadı: " ++ err)
  | .ok file =>
    let scanner := NewScanner file
    let targets := scanner.texts.foldl
      (fun targets text =>
        let line := TrimSpace text
        if line ≠ "" then targets ++ [line] else targets) []
    match scanner.Err with
    | some err => .error ("dosya okuma hatası: " ++ err)
    | none => .ok targets

/-- The function `createTorClient`: the calls it makes, and the client or the error
it returns. -/
def createTorClient (env : Env) (proxyAddr : String) : List Event × Except GoError Client :=
  match env.socks5 proxyAddr with
  | some err => ([], .error ("SOCKS5 dialer oluşturulamadı: " ++ err))
  | none =>
    match env.dial "check.torproject.org:80" with
    | some err =>
      ([.dial "check.torproject.org:80"],
        .error ("Tor proxy çalışıyor fakat dış bağlantı başarısız: " ++ err))
    | none =>
      ([.dial "check.torproject.org:80", .connClose],
        .ok { proxyAddr := proxyAddr, DisableKeepAlives := true, MaxIdleConns := 10,
              IdleConnTimeout := 30, TLSHandshakeTimeout := 10, ExpectContinueTimeout := 1,
              Timeout := 30 })

/-- The call `client.Get(url)`: `http.NewRequest` parses the URL with `url.Parse` and
the request fails when that fails; otherwise the round trip decides. -/
def clientGet (env : Env) (_client : Client) (index : Nat) (url : String) :
    Except GoError Response :=
  match env.urlParse url with
  | .error err => .error ("Get " ++ quoted url ++ ": " ++ err)
  | .ok _ => env.roundTrip index url

/-- The effect of a call that returns nothing: the calls it made, and whether it
ended in a run-time panic instead of returning. -/
structure Step where
  events : List Event
  crashed : Bool

/-- The closure `log` of `scrapeTarget`: the entry goes to the console and to the
log file. -/
def logEntry (targetURL logFile level msg : String) : List Event :=
  let entry := "[" ++ level ++ "] Scanning: " ++ targetURL ++ " -> " ++ msg ++ "\n"
  [.print entry, .logWrite logFile entry]

/-- The name stem `fmt.Sprintf("%02d_%s_%s", index, baseName, timestamp)`. -/
def stem (index : Nat) (baseName timestamp : String) : String :=
  sprint02d index ++ "_" ++ baseName ++ "_" ++ timestamp

/-- The function `scrapeTarget`.  When `url.Parse` fails, `u` is `nil` and reading
`u.Host` is a nil pointer dereference: the call panics before anything is fetched
or written. -/
def scrapeTarget (env : Env) (client : Client) (targetURL outputDir logFile : String)
    (index : Nat) : Step :=
  let log := logEntry targetURL logFile
  match env.urlParse targetURL with
  | .error _ => ⟨[], true⟩
  | .ok u =>
    let baseName := ReplaceAll u.Host '.' '_'
    let timestamp := formatStamp (env.now index)
    let pfx := stem index baseName timestamp
    match clientGet env client index targetURL with
    | .error err =>
      let filePath := filepathJoin outputDir (pfx ++ "_FAILED.txt")
      ⟨[.get targetURL, .writeFile filePath (bytesOf err)]
        ++ log "ERR" ("FAILED (Kaydedildi: " ++ filePath ++ ")"), false⟩
    | .ok resp =>
      if resp.StatusCode ≠ 200 then
        let filePath := filepathJoin outputDir (pfx ++ "_FAILED.txt")
        ⟨[.get targetURL,
            .writeFile filePath (bytesOf ("HTTP STATUS: " ++ sprintD resp.StatusCode))]
          ++ log "ERR" ("FAILED (HTTP " ++ sprintD resp.StatusCode ++ ")")
          ++ [.bodyClose], false⟩
      else
        match resp.Body with
        | .error _ =>
          let filePath := filepathJoin outputDir (pfx ++ "_FAILED.txt")
          ⟨[.get targetURL, .writeFile filePath (bytesOf "Response body okunamadı")]
            ++ log "ERR" "FAILED (Body okunamadı)" ++ [.bodyClose], false⟩
        | .ok body =>
          let filePath := filepathJoin outputDir (pfx ++ ".html")
          ⟨[.get targetURL, .writeFile filePath body]
            ++ log "INFO" ("SUCCESS (Kaydedildi: " ++ filePath ++ ")") ++ [.bodyClose], false⟩

/-- The loop `for i, target := range targets` of `main`, from position `i` on: the
call for a target gets `i+1` as index; a panic ends the loop. -/
def scrapeLoop (env : Env) (client : Client) (outputDir logFile : String) :
    Nat → List String → Step
  | _, [] => ⟨[], false⟩
  | i, target :: rest =>
    let s := scrapeTarget env client target outputDir logFile (i + 1)
    if s.crashed then s
    else
      let r := scrapeLoop env client outputDir logFile (i + 1) rest
      ⟨s.events ++ r.events, r.crashed⟩

/-- A run of the program: the calls it made and its exit code (0 when `main`
returns, 1 for `os.Exit(1)`, 2 for a run-time panic). -/
structure Run where
  trace : List Event
  exitCode : Nat

/-- The constant `torProxyAddr` of `main`. -/
def torProxyAddr : String := "127.0.0.1:9150"

/-- The constant `outputDir` of `main`. -/
def outputDir : String := "output"

/-- The constant `logFileName` of `main`. -/
def logFileName : String := "scan_report.log"

/-- The element `os.Args[i]`, read after the length of `os.Args` has been checked. -/
def osArg (env : Env) (i : Nat) : String := env.Args.getD i ""

/-- The function `main`. -/
def main (env : Env) : Run :=
  if env.Args.length < 2 then
    ⟨[.print "Kullanım: go run main.go targets.yaml\n"], 1⟩
  else
    let targetsFile := osArg env 1
    match readTargetsFile env targetsFile with
    | .error err => ⟨[.print ("HATA: " ++ err ++ "\n")], 1⟩
    | .ok targets =>
      match createTorClient env torProxyAddr with
      | (probe, .error err) => ⟨probe ++ [.print ("KRİTİK HATA: " ++ err ++ "\n")], 1⟩
      | (probe, .ok client) =>
        -- the error of `os.MkdirAll` is dropped
        let _mkdirErr := env.mkdirAll outputDir
        match env.create logFileName with
        | some _ =>
          ⟨probe ++ [.mkdirAll outputDir, .create logFileName,
            .print "Log dosyası oluşturulamadı\n"], 1⟩
        | none =>
          let start := probe ++ [.mkdirAll outputDir, .create logFileName,
            .print ("--- Tarama Başlatıldı (" ++ sprintD targets.length ++ " hedef) ---\n"),
            .logWrite logFileName
              ("Tarama başlatıldı: " ++ formatRFC3339 (env.now 0) ++ "\n")]
          let loop := scrapeLoop env client outputDir logFileName 0 targets
          if loop.crashed then
            ⟨start ++ loop.events ++ [.logClose logFileName], 2⟩
          else
            ⟨start ++ loop.events ++
              [.print "--- Tarama Tamamlandı ---\n", .print ("Rapor: " ++ logFileName ++ "\n"),
               .print ("Çıktılar: " ++ outputDir ++ "\n"), .logClose logFileName], 0⟩

/-! ## A concrete world for the scenarios -/

/-- The values of `url.Parse` at the strings of the scenarios: the two onion URLs
parse with host `example.onion`; `":foo"` has no scheme before its colon and is
rejected.  No other string is used. -/
def urlParseTable (rawURL : String) : Except GoError URL :=
  if rawURL = "http://example.onion/a" ∨ rawURL = "http://example.onion/b" then .ok ⟨"example.onion"⟩
  else .error ("parse " ++ quoted rawURL ++ ": missing protocol scheme")

/-- The clock of the scenarios: 4 November 2026, 10:15:30 UTC, for every reading. -/
def demoTime : Time := ⟨2026, 11, 4, 10, 15, 30, 0⟩

/-- The content of the input file of the scenario of the specification: the lines
`"http://example.onion/a"`, `""`, `"  "`, `"http://example.onion/b"`. -/
def demoContent : String := "http://example.onion/a\n\n  \nhttp://example.onion/b\n"

/-- The five bytes of `hello`. -/
def helloBytes : Bytes := [104, 101, 108, 108, 111]

/-- A world in which everything works: the input file holds `content`, the proxy
answers, the first target is served `hello` with status 200, and each later target
is answered with status 404. -/
def demoEnv (content : String) : Env where
  Args := ["scraper", "targets.yaml"]
  openFile := fun _ => .ok ⟨content, none⟩
  socks5 := fun _ => none
  dial := fun _ => none
  mkdirAll := fun _ => none
  create := fun _ => none
  urlParse := urlParseTable
  now := fun _ => demoTime
  roundTrip := fun index _ => if index = 1 then .ok ⟨200, .ok helloBytes⟩ else .ok ⟨404, .ok []⟩

/-- The content of an input file that is one line of 65536 letters `a`, with no
newline: as many bytes as the buffer of a `bufio.Scanner` may hold. -/
def longLine : String := ⟨List.replicate 65536 'a'⟩

/-! ## Definitions that state the claims -/

/-- The first line of a list of lines extended at the front. -/
def extendFirst (p : List Char) : List (List Char) → List (List Char)
  | [] => [p]
  | l :: ls => (p ++ l) :: ls

/-- Splitting a text into lines, as the specification words it: the pieces
between the newline characters. -/
def specLines : List Char → List (List Char)
  | [] => [[]]
  | c :: cs => if c = '\n' then [] :: specLines cs else extendFirst [c] (specLines cs)

/-- The target list the specification describes: split the content into lines, trim
each line, drop the lines that are empty after trimming. -/
def specTargets (content : String) : List String :=
  ((specLines content.data).map fun l => TrimSpace ⟨l⟩).filter fun t => t ≠ ""

/-- The pipeline after the split: trim every line, keep the non-empty ones. -/
def keepTrimmed (ls : List (List Char)) : List String :=
  (ls.map fun l => TrimSpace ⟨l⟩).filter fun t => t ≠ ""

/-- Byte-wise lexical order on strings, the order a sorted directory listing uses:
`lexLt a b` holds when `a` sorts strictly before `b`.  Characters are compared by code
point, which on UTF-8 text is the order of the encoded bytes. -/
def lexLt : List Char → List Char → Bool
  | _, [] => false
  | [], _ :: _ => true
  | a :: as, b :: bs =>
    if a.toNat < b.toNat then true
    else if b.toNat < a.toNat then false
    else lexLt as bs

/-- The value of a string of decimal digits. -/
def digitsValue (l : List Char) : Nat := l.foldl (fun acc c => 10 * acc + (c.toNat - 48)) 0

/-- Whether an attempt ends in the success outcome: the request returned, the
status is 200 and the body was read. -/
def isSuccess : Except GoError Response → Bool
  | .error _ => false
  | .ok resp => resp.StatusCode == 200 && (match resp.Body with | .ok _ => true | .error _ => false)

/-- The suffix of the artifact name of an attempt. -/
def suffixOf (r : Except GoError Response) : String :=
  if isSuccess r then ".html" else "_FAILED.txt"

/-- The paths of the calls `os.WriteFile` of a trace, in order. -/
def pathsOf (es : List Event) : List String := (writesOf es).map Prod.fst

/-- The artifact path of a call of `scrapeTarget`, for a target that parses. -/
def artifactPath (env : Env) (client : Client) (outputDir : String) (index : Nat)
    (targetURL : String) : String :=
  match env.urlParse targetURL with
  | .ok u =>
    filepathJoin outputDir
      (stem index (ReplaceAll u.Host '.' '_') (formatStamp (env.now index))
        ++ suffixOf (clientGet env client index targetURL))
  | .error _ => ""

/-- The calls `main` makes before the loop when the start-up succeeds. -/
def startEvents (env : Env) (targets : List String) : List Event :=
  [.dial "check.torproject.org:80", .connClose, .mkdirAll outputDir, .create logFileName,
    .print ("--- Tarama Başlatıldı (" ++ sprintD targets.length ++ " hedef) ---\n"),
    .logWrite logFileName ("Tarama başlatıldı: " ++ formatRFC3339 (env.now 0) ++ "\n")]

/-- The calls `main` makes after the loop. -/
def endEvents : List Event :=
  [.print "--- Tarama Tamamlandı ---\n", .print ("Rapor: " ++ logFileName ++ "\n"),
    .print ("Çıktılar: " ++ outputDir ++ "\n"), .logClose logFileName]

/-- The client `createTorClient` builds for a proxy address. -/
def torClient (proxyAddr : String) : Client :=
  { proxyAddr := proxyAddr, DisableKeepAlives := true, MaxIdleConns := 10,
    IdleConnTimeout := 30, TLSHandshakeTimeout := 10, ExpectContinueTimeout := 1, Timeout := 30 }

/-! ## Lemmas and theorems -/

/-! ### The input file -/

theorem specLines_ne_nil (cs : List Char) : specLines cs ≠ [] := by
  cases cs with
  | nil => simp [specLines]
  | cons c cs =>
    simp only [specLines]
    split
    · simp
    · cases h : specLines cs <;> simp [extendFirst]

theorem extendFirst_nil (ls : List (List Char)) (h : ls ≠ []) : extendFirst [] ls = ls := by
  cases ls with
  | nil => exact absurd rfl h
  | cons l ls => simp [extendFirst]

theorem extendFirst_append (p q : List Char) (ls : List (List Char)) (h : ls ≠ []) :
    extendFirst p (extendFirst q ls) = extendFirst (p ++ q) ls := by
  cases ls with
  | nil => exact absurd rfl h
  | cons l ls => simp [extendFirst]

theorem TrimSpace_nil : TrimSpace "" = "" := by rfl

theorem keepTrimmed_cons (l : List Char) (ls : List (List Char)) :
    keepTrimmed (l :: ls) =
      (if TrimSpace ⟨l⟩ ≠ "" then [TrimSpace ⟨l⟩] else []) ++ keepTrimmed ls := by
  unfold keepTrimmed
  by_cases h : TrimSpace ⟨l⟩ = "" <;> simp [List.filter_cons, h]

theorem keepTrimmed_rawLinesAux (cs acc : List Char) :
    keepTrimmed (rawLinesAux cs acc) = keepTrimmed (extendFirst acc.reverse (specLines cs)) := by
  induction cs generalizing acc with
  | nil =>
    cases acc with
    | nil => simp [rawLinesAux, specLines, extendFirst, keepTrimmed, TrimSpace_nil]
    | cons a acc => simp [rawLinesAux, specLines, extendFirst]
  | cons c cs ih =>
    by_cases hc : c = '\n'
    · simp only [rawLinesAux, specLines, hc, if_true, extendFirst, List.append_nil]
      rw [keepTrimmed_cons, keepTrimmed_cons, ih []]
      simp [extendFirst_nil _ (specLines_ne_nil cs)]
    · simp only [rawLinesAux, specLines, hc, if_false]
      rw [ih (c :: acc), extendFirst_append _ _ _ (specLines_ne_nil cs)]
      simp

theorem keepTrimmed_rawLines (content : String) :
    keepTrimmed (rawLines content) = specTargets content := by
  unfold rawLines
  rw [keepTrimmed_rawLinesAux]
  simp [extendFirst_nil _ (specLines_ne_nil _), keepTrimmed, specTargets]

theorem isSpace_cr : isSpace '\r' = true := by decide

theorem trimLeft_append_space (l : List Char) (c : Char) (hc : isSpace c = true) :
    trimRight (trimLeft (l ++ [c])) = trimRight (trimLeft l) := by
  induction l with
  | nil => simp [trimLeft, trimRight, hc]
  | cons a l ih =>
    by_cases ha : isSpace a = true
    · simpa [trimLeft, List.dropWhile_cons, ha] using ih
    · simp [trimLeft, trimRight, List.dropWhile_cons, ha, hc]

theorem TrimSpace_dropCR (l : List Char) : TrimSpace ⟨dropCR l⟩ = TrimSpace ⟨l⟩ := by
  unfold dropCR
  split
  · next h =>
    obtain ⟨m, rfl⟩ : ∃ m, l = m ++ ['\r'] := by
      rcases List.eq_nil_or_concat l with rfl | ⟨m, b, rfl⟩
      · simp at h
      · simp at h
        exact ⟨m, by simp [h]⟩
    simp only [TrimSpace, List.dropLast_concat]
    rw [trimLeft_append_space m '\r' isSpace_cr]
  · rfl

theorem scanTokens_texts (ls : List (List Char)) (h : (scanTokens ls).2 = false) :
    (scanTokens ls).1 = ls.map fun l => String.mk (dropCR l) := by
  induction ls with
  | nil => rfl
  | cons l ls ih =>
    by_cases hl : MaxScanTokenSize ≤ byteLen l
    · simp [scanTokens, hl] at h
    · simp only [scanTokens, hl, if_false] at h ⊢
      simp [ih h]

theorem scanTokens_ok_iff (ls : List (List Char)) :
    (scanTokens ls).2 = false ↔ ∀ l ∈ ls, byteLen l < MaxScanTokenSize := by
  induction ls with
  | nil => simp [scanTokens]
  | cons l ls ih =>
    by_cases hl : MaxScanTokenSize ≤ byteLen l
    · simp [scanTokens, hl]
    · simp only [scanTokens, hl, if_false, ih, List.mem_cons, forall_eq_or_imp]
      constructor
      · intro h; exact ⟨by omega, h⟩
      · intro h; exact h.2

theorem collect_foldl (texts : List String) (init : List String) :
    texts.foldl (fun targets text =>
        let line := TrimSpace text
        if line ≠ "" then targets ++ [line] else targets) init
      = init ++ (texts.map TrimSpace).filter fun t => t ≠ "" := by
  induction texts generalizing init with
  | nil => simp
  | cons t ts ih =>
    simp only [List.foldl_cons, List.map_cons]
    rw [ih]
    by_cases h : TrimSpace t = "" <;> simp [List.filter_cons, h]

theorem dropWhile_head_not (p : Char → Bool) (l : List Char) (c : Char)
    (h : (l.dropWhile p).head? = some c) : p c = false := by
  induction l with
  | nil => simp at h
  | cons a l ih =>
    by_cases ha : p a = true
    · rw [List.dropWhile_cons, if_pos ha] at h
      exact ih h
    · rw [List.dropWhile_cons, if_neg ha] at h
      simp at h
      subst h
      simpa using ha

theorem trimRight_append (l : List Char) : ∃ t, trimRight l ++ t = l := by
  refine ⟨(l.reverse.takeWhile isSpace).reverse, ?_⟩
  unfold trimRight
  rw [← List.reverse_append, List.takeWhile_append_dropWhile, List.reverse_reverse]

theorem trim_head_not_space (l : List Char) (c : Char)
    (h : (trimRight (trimLeft l)).head? = some c) : isSpace c = false := by
  obtain ⟨t, ht⟩ := trimRight_append (trimLeft l)
  apply dropWhile_head_not isSpace l c
  show (trimLeft l).head? = some c
  rw [← ht]
  cases hx : trimRight (trimLeft l) with
  | nil => rw [hx] at h; simp at h
  | cons a x => rw [hx] at h; simpa using h

theorem trim_last_not_space (l : List Char) (c : Char)
    (h : (trimRight (trimLeft l)).getLast? = some c) : isSpace c = false := by
  unfold trimRight at h
  rw [List.getLast?_reverse] at h
  exact dropWhile_head_not isSpace _ c h

theorem mem_specTargets (content t : String) (h : t ∈ specTargets content) :
    t ≠ "" ∧ (∀ c, t.data.head? = some c → isSpace c = false) ∧
      (∀ c, t.data.getLast? = some c → isSpace c = false) := by
  unfold specTargets at h
  simp only [List.mem_filter, List.mem_map, decide_eq_true_eq] at h
  obtain ⟨⟨l, _, rfl⟩, hne⟩ := h
  exact ⟨hne, fun c hc => trim_head_not_space l c hc, fun c hc => trim_last_not_space l c hc⟩

theorem readTargetsFile_of_scan (env : Env) (filePath : String) (file : File)
    (hopen : env.openFile filePath = .ok file) (herr : (NewScanner file).Err = none) :
    readTargetsFile env filePath = .ok (specTargets file.data) := by
  have h2 : (scanTokens (rawLines file.data)).2 = false := by
    unfold NewScanner at herr
    by_cases hb : (scanTokens (rawLines file.data)).2 = true
    · simp [hb] at herr
    · simpa using hb
  unfold readTargetsFile
  rw [hopen]
  simp only [herr]
  rw [collect_foldl]
  simp only [NewScanner, scanTokens_texts _ h2, List.nil_append, List.map_map]
  rw [← keepTrimmed_rawLines]
  unfold keepTrimmed
  congr 2
  apply List.map_congr_left
  intro l _
  exact TrimSpace_dropCR l

/-- The scanner reports no error exactly when the reads end at end of file and every
line is shorter than the buffer bound. -/
theorem scanner_err_none_iff (file : File) :
    (NewScanner file).Err = none ↔
      file.readErr = none ∧ ∀ l ∈ rawLines file.data, byteLen l < MaxScanTokenSize := by
  rw [← scanTokens_ok_iff]
  unfold NewScanner
  by_cases hb : (scanTokens (rawLines file.data)).2 = true
  · simp [hb]
  · simp [hb]

theorem replicate_snoc (n : Nat) :
    List.replicate n 'a' ++ ['a'] = 'a' :: List.replicate n 'a' :=
  (List.replicate_succ' n 'a').symm.trans (List.replicate_succ 'a' n)

/-- The raw lines of a text of `n` letters `a`, read with `acc` pending: the scan
reaches the end of the data with all the letters pending. -/
theorem rawLinesAux_replicate (n : Nat) (acc : List Char) :
    rawLinesAux (List.replicate n 'a') acc = rawLinesAux [] (List.replicate n 'a' ++ acc) := by
  induction n generalizing acc with
  | zero => rfl
  | succ n ih =>
    have hne : ¬ ('a' = '\n') := by decide
    have hstep : rawLinesAux ('a' :: List.replicate n 'a') acc
        = rawLinesAux (List.replicate n 'a') ('a' :: acc) := by
      simp only [rawLinesAux, hne, if_false]
    have happ : List.replicate n 'a' ++ 'a' :: acc = 'a' :: (List.replicate n 'a' ++ acc) := by
      rw [← List.cons_append, ← replicate_snoc n, List.append_assoc]
      rfl
    rw [List.replicate_succ, hstep, ih ('a' :: acc), happ]
    rfl

theorem rawLines_replicate (n : Nat) :
    rawLines ⟨List.replicate (n + 1) 'a'⟩ = [List.replicate (n + 1) 'a'] := by
  unfold rawLines
  rw [rawLinesAux_replicate, List.append_nil, List.replicate_succ]
  simp only [rawLinesAux, List.isEmpty_cons, Bool.false_eq_true, if_false]
  rw [← List.replicate_succ, List.reverse_replicate]

theorem byteLen_replicate (n : Nat) : byteLen (List.replicate n 'a') = n := by
  have h1 : Char.utf8Size 'a' = 1 := by decide
  simp [byteLen, List.map_replicate, h1]

/-- A file that opens and is read to its end, and is one line of `n + 1` letters with
`n + 1` at least the buffer bound: the scanner stops with `ErrTooLong` and
`readTargetsFile` returns that error. -/
theorem readTargetsFile_long_line (env : Env) (filePath : String) (n : Nat)
    (hn : MaxScanTokenSize ≤ n + 1)
    (hopen : env.openFile filePath = .ok ⟨⟨List.replicate (n + 1) 'a'⟩, none⟩) :
    readTargetsFile env filePath = .error ("dosya okuma hatası: " ++ ErrTooLong) := by
  have hlen : MaxScanTokenSize ≤ byteLen (List.replicate (n + 1) 'a') := by
    rw [byteLen_replicate]; exact hn
  unfold readTargetsFile
  rw [hopen]
  simp only [NewScanner, rawLines_replicate, scanTokens, hlen, if_true]

theorem trimLeft_replicate (n : Nat) :
    trimLeft (List.replicate (n + 1) 'a') = List.replicate (n + 1) 'a' := by
  have h : isSpace 'a' = false := by decide
  simp [trimLeft, List.replicate_succ, List.dropWhile_cons, h]

theorem trimRight_replicate (n : Nat) :
    trimRight (List.replicate (n + 1) 'a') = List.replicate (n + 1) 'a' := by
  have h : isSpace 'a' = false := by decide
  unfold trimRight
  rw [List.reverse_replicate]
  simp [List.replicate_succ, List.dropWhile_cons, h]
  exact replicate_snoc n

/-- The list the specification describes for a text that is one line of letters: that
line. -/
theorem specTargets_replicate (n : Nat) :
    specTargets ⟨List.replicate (n + 1) 'a'⟩ = [⟨List.replicate (n + 1) 'a'⟩] := by
  have ht : TrimSpace ⟨List.replicate (n + 1) 'a'⟩ = ⟨List.replicate (n + 1) 'a'⟩ := by
    simp only [TrimSpace, trimLeft_replicate, trimRight_replicate]
  have hne : (⟨List.replicate (n + 1) 'a'⟩ : String) ≠ "" := by
    intro h
    have h2 := congrArg String.data h
    simp [List.replicate_succ] at h2
  rw [← keepTrimmed_rawLines, rawLines_replicate, keepTrimmed_cons, ht]
  simp [hne, keepTrimmed]

/-- C5, as amended: for every input file that opens, is read to its end without a read
error, and has no line of 65536 bytes or more (the bound of the buffer of
`bufio.Scanner`), `readTargetsFile` returns exactly the list the specification
describes: the content split into lines, each line trimmed, the lines that are empty
after trimming dropped, in file order and with duplicates kept.  Every returned target
is non-empty and neither starts nor ends with white space, and the lines
`"http://example.onion/a"`, `""`, `"  "`, `"http://example.onion/b"` give exactly the
two targets `"http://example.onion/a"` and `"http://example.onion/b"`. -/
theorem readTargetsFile_spec (env : Env) (filePath : String) (file : File)
    (hopen : env.openFile filePath = .ok file) (hread : file.readErr = none)
    (hlines : ∀ l ∈ rawLines file.data, byteLen l < MaxScanTokenSize) :
    readTargetsFile env filePath = .ok (specTargets file.data)
    ∧ (∀ t ∈ specTargets file.data, t ≠ "" ∧
        (∀ c, t.data.head? = some c → isSpace c = false) ∧
        (∀ c, t.data.getLast? = some c → isSpace c = false))
    ∧ (file.data = "http://example.onion/a\n\n  \nhttp://example.onion/b" →
        readTargetsFile env filePath
          = .ok ["http://example.onion/a", "http://example.onion/b"]) := by
  have herr : (NewScanner file).Err = none := (scanner_err_none_iff file).mpr ⟨hread, hlines⟩
  refine ⟨readTargetsFile_of_scan env filePath file hopen herr,
    fun t ht => mem_specTargets file.data t ht, ?_⟩
  intro hdata
  rw [readTargetsFile_of_scan env filePath file hopen herr, hdata]
  rfl

theorem readTargetsFile_spec_witness :
    (demoEnv demoContent).openFile "targets.yaml" = .ok ⟨demoContent, none⟩
    ∧ (∀ l ∈ rawLines demoContent, byteLen l < MaxScanTokenSize)
    ∧ readTargetsFile (demoEnv demoContent) "targets.yaml"
        = .ok ["http://example.onion/a", "http://example.onion/b"] :=
  ⟨rfl, ((scanner_err_none_iff ⟨demoContent, none⟩).mp rfl).2,
    (readTargetsFile_spec (demoEnv demoContent) "targets.yaml" ⟨demoContent, none⟩ rfl rfl
      ((scanner_err_none_iff ⟨demoContent, none⟩).mp rfl).2).1⟩

/-- C5 fails as stated.  The input file whose content is one line of 65536 letters `a`
opens and is read to its end without a read error; the list the specification
describes for it is that one line; yet `readTargetsFile` returns no list but the
error of the scanner, `bufio.Scanner: token too long`. -/
theorem readTargetsFile_counterexample :
    (demoEnv longLine).openFile "targets.yaml" = .ok ⟨longLine, none⟩
    ∧ specTargets longLine = [longLine]
    ∧ readTargetsFile (demoEnv longLine) "targets.yaml"
        = .error "dosya okuma hatası: bufio.Scanner: token too long"
    ∧ readTargetsFile (demoEnv longLine) "targets.yaml" ≠ .ok (specTargets longLine) := by
  have herr := readTargetsFile_long_line (demoEnv longLine) "targets.yaml" 65535
    (Nat.le_refl _) rfl
  refine ⟨rfl, specTargets_replicate 65535, herr, ?_⟩
  rw [herr]
  intro h
  cases h

/-! ### Decimal formatting and artifact names -/

theorem digitChar_toNat (d : Nat) (h : d < 10) : (Nat.digitChar d).toNat = 48 + d := by
  interval_cases d <;> rfl

theorem digitsValue_append_single (l : List Char) (c : Char) :
    digitsValue (l ++ [c]) = 10 * digitsValue l + (c.toNat - 48) := by
  simp [digitsValue, List.foldl_append]

theorem digitsValue_decimalAux (fuel n : Nat) (h : n < fuel) :
    digitsValue (decimalAux fuel n) = n := by
  induction fuel generalizing n with
  | zero => omega
  | succ fuel ih =>
    unfold decimalAux
    split
    · next hn => simp [digitsValue, digitChar_toNat n hn]
    · next hn =>
      rw [digitsValue_append_single, ih (n / 10) (by omega),
        digitChar_toNat (n % 10) (Nat.mod_lt _ (by decide))]
      omega

theorem digitsValue_zeros (k : Nat) (l : List Char) :
    digitsValue (List.replicate k '0' ++ l) = digitsValue l := by
  induction k with
  | zero => simp
  | succ k ih =>
    have : digitsValue ('0' :: (List.replicate k '0' ++ l))
        = digitsValue (List.replicate k '0' ++ l) := by
      simp [digitsValue]
    simpa [List.replicate_succ, ih] using this.trans ih

theorem digitsValue_sprint02d (n : Nat) : digitsValue (sprint02d n).data = n := by
  simp [sprint02d, zeroPad, digitsValue_zeros, digitsValue_decimalAux]

theorem sprint02d_injective (i j : Nat) (h : sprint02d i = sprint02d j) : i = j := by
  rw [← digitsValue_sprint02d i, ← digitsValue_sprint02d j, h]

theorem decimalAux_no_underscore (fuel n : Nat) : ∀ c ∈ decimalAux fuel n, c ≠ '_' := by
  induction fuel generalizing n with
  | zero => simp [decimalAux]
  | succ fuel ih =>
    have hd : ∀ d, d < 10 → Nat.digitChar d ≠ '_' := by
      intro d hd
      interval_cases d <;> decide
    unfold decimalAux
    split
    · next hn =>
      intro c hc
      simp at hc
      subst hc
      exact hd n hn
    · intro c hc
      simp only [List.mem_append, List.mem_singleton] at hc
      rcases hc with hc | hc
      · exact ih _ c hc
      · subst hc
        exact hd _ (Nat.mod_lt _ (by decide))

theorem sprint02d_no_underscore (n : Nat) : ∀ c ∈ (sprint02d n).data, c ≠ '_' := by
  intro c hc
  simp only [sprint02d, zeroPad, List.mem_append] at hc
  rcases hc with hc | hc
  · rw [List.eq_of_mem_replicate hc]
    decide
  · exact decimalAux_no_underscore _ _ c hc

/-- Two lists that agree after a first `'_'`, neither containing one before it, have the
same part before it. -/
theorem eq_of_append_underscore (a b x y : List Char)
    (ha : ∀ c ∈ a, c ≠ '_') (hb : ∀ c ∈ b, c ≠ '_')
    (h : a ++ '_' :: x = b ++ '_' :: y) : a = b := by
  induction a generalizing b with
  | nil =>
    cases b with
    | nil => rfl
    | cons c b =>
      simp at h
      exact absurd h.1.symm (hb c (by simp))
  | cons c a ih =>
    cases b with
    | nil =>
      simp at h
      exact absurd h.1 (ha c (by simp))
    | cons d b =>
      simp at h
      rw [h.1, ih b (fun c hc => ha c (by simp [hc])) (fun c hc => hb c (by simp [hc])) h.2]

theorem stem_injective (i j : Nat) (b1 b2 t1 t2 s1 s2 : String)
    (h : stem i b1 t1 ++ s1 = stem j b2 t2 ++ s2) : i = j := by
  apply sprint02d_injective
  apply String.ext
  have h2 := congrArg String.data h
  simp only [stem, String.data_append, List.append_assoc] at h2
  exact eq_of_append_underscore _ _ _ _ (sprint02d_no_underscore i) (sprint02d_no_underscore j) h2

theorem sprint02d_small (n : Nat) (h : n < 100) :
    (sprint02d n).data = [Nat.digitChar (n / 10), Nat.digitChar (n % 10)] := by
  by_cases h10 : n < 10
  · have : n / 10 = 0 := by omega
    have h2 : n % 10 = n := by omega
    simp [sprint02d, zeroPad, decimalAux, h10, this, h2]
    rfl
  · obtain ⟨m, rfl⟩ : ∃ m, n = m + 1 := ⟨n - 1, by omega⟩
    obtain ⟨k, hk⟩ : ∃ k, m = k + 1 := ⟨m - 1, by omega⟩
    have h3 : (m + 1) / 10 < 10 := by omega
    simp only [sprint02d, decimalAux, h10, if_false]
    subst hk
    simp [decimalAux, h3, zeroPad]

theorem lexLt_sprint02d (i j : Nat) (hij : i < j) (hj : j < 100) (x y : List Char) :
    lexLt ((sprint02d i).data ++ x) ((sprint02d j).data ++ y) = true := by
  rw [sprint02d_small i (by omega), sprint02d_small j hj]
  have a1 := digitChar_toNat (i / 10) (by omega)
  have a2 := digitChar_toNat (i % 10) (Nat.mod_lt _ (by decide))
  have b1 := digitChar_toNat (j / 10) (by omega)
  have b2 := digitChar_toNat (j % 10) (Nat.mod_lt _ (by decide))
  simp only [List.cons_append, List.nil_append, lexLt, a1, a2, b1, b2]
  by_cases h1 : i / 10 < j / 10
  · simp [h1]
  · have h2 : i / 10 = j / 10 := by omega
    have h3 : i % 10 < j % 10 := by omega
    simp [h2, h3]

/-! ### One target, and the loop -/

theorem writesOf_append (a b : List Event) : writesOf (a ++ b) = writesOf a ++ writesOf b := by
  induction a with
  | nil => rfl
  | cons e a ih => cases e <;> simp [writesOf, ih]

theorem logsOf_append (a b : List Event) : logsOf (a ++ b) = logsOf a ++ logsOf b := by
  induction a with
  | nil => rfl
  | cons e a ih => cases e <;> simp [logsOf, ih]

theorem getsOf_append (a b : List Event) : getsOf (a ++ b) = getsOf a ++ getsOf b := by
  induction a with
  | nil => rfl
  | cons e a ih => cases e <;> simp [getsOf, ih]

theorem pathsOf_append (a b : List Event) : pathsOf (a ++ b) = pathsOf a ++ pathsOf b := by
  simp [pathsOf, writesOf_append]

/-- One call of `scrapeTarget` on a target that parses: it returns, after one GET, one
`os.WriteFile` and one log entry; the artifact path is the stem with the suffix of
the outcome. -/
theorem scrapeTarget_parsed (env : Env) (client : Client)
    (targetURL outputDir logFile : String) (index : Nat) (u : URL)
    (hparse : env.urlParse targetURL = .ok u) :
    (scrapeTarget env client targetURL outputDir logFile index).crashed = false
    ∧ getsOf (scrapeTarget env client targetURL outputDir logFile index).events = [targetURL]
    ∧ pathsOf (scrapeTarget env client targetURL outputDir logFile index).events
        = [filepathJoin outputDir
            (stem index (ReplaceAll u.Host '.' '_') (formatStamp (env.now index))
              ++ suffixOf (clientGet env client index targetURL))]
    ∧ (logsOf (scrapeTarget env client targetURL outputDir logFile index).events).length = 1 := by
  unfold scrapeTarget
  simp only [hparse]
  cases hget : clientGet env client index targetURL with
  | error err => simp [getsOf, pathsOf, writesOf, logsOf, logEntry, suffixOf, isSuccess]
  | ok resp =>
    by_cases hstatus : resp.StatusCode = 200
    · cases hbody : resp.Body with
      | error err =>
        simp [getsOf, pathsOf, writesOf, logsOf, logEntry, suffixOf, isSuccess, hstatus, hbody]
      | ok body =>
        simp [getsOf, pathsOf, writesOf, logsOf, logEntry, suffixOf, isSuccess, hstatus, hbody]
    · simp [getsOf, pathsOf, writesOf, logsOf, logEntry, suffixOf, isSuccess, hstatus]

/-- One call of `scrapeTarget` on a target that does not parse: it panics before
any call. -/
theorem scrapeTarget_unparsed (env : Env) (client : Client)
    (targetURL outputDir logFile : String) (index : Nat) (err : GoError)
    (hparse : env.urlParse targetURL = .error err) :
    scrapeTarget env client targetURL outputDir logFile index = ⟨[], true⟩ := by
  unfold scrapeTarget
  simp only [hparse]

/-- The loop over targets that all parse: it ends without a panic, after one GET per
target in list order, one artifact per target in list order, the call for position
`k` (counted from `i + 1`) with index `k`, and one log entry per target. -/
theorem scrapeLoop_parsed (env : Env) (client : Client) (outputDir logFile : String)
    (targets : List String) (i : Nat)
    (hparse : ∀ t ∈ targets, ∃ u, env.urlParse t = .ok u) :
    (scrapeLoop env client outputDir logFile i targets).crashed = false
    ∧ getsOf (scrapeLoop env client outputDir logFile i targets).events = targets
    ∧ pathsOf (scrapeLoop env client outputDir logFile i targets).events
        = (List.enumFrom (i + 1) targets).map
            (fun kt => artifactPath env client outputDir kt.1 kt.2)
    ∧ (logsOf (scrapeLoop env client outputDir logFile i targets).events).length
        = targets.length := by
  induction targets generalizing i with
  | nil => simp [scrapeLoop, getsOf, pathsOf, writesOf, logsOf]
  | cons t ts ih =>
    obtain ⟨u, hu⟩ := hparse t (by simp)
    obtain ⟨h1, h2, h3, h4⟩ := scrapeTarget_parsed env client t outputDir logFile (i + 1) u hu
    obtain ⟨k1, k2, k3, k4⟩ := ih (i + 1) (fun t ht => hparse t (by simp [ht]))
    simp only [scrapeLoop, h1, Bool.false_eq_true, if_false]
    refine ⟨k1, ?_, ?_, ?_⟩
    · rw [getsOf_append, h2, k2]; rfl
    · rw [pathsOf_append, h3, k3]
      simp [List.enumFrom_cons, artifactPath, hu]
    · rw [logsOf_append, List.length_append, h4, k4]
      simp [Nat.add_comm]

/-- C1: for a target whose URL parses, `scrapeTarget` makes one GET and ends in
exactly one of four outcomes, decided in this order: the request failed; the status
is not 200 (204 included); reading the body failed; success.  In each outcome it
calls `os.WriteFile` once and appends one entry to the log: the first three write
`<stem>_FAILED.txt` and log at level `ERR`, the fourth writes `<stem>.html` and logs
at level `INFO`. -/
theorem scrapeTarget_outcomes (env : Env) (client : Client)
    (targetURL outputDir logFile : String) (index : Nat) (u : URL)
    (hparse : env.urlParse targetURL = .ok u) :
    (scrapeTarget env client targetURL outputDir logFile index).crashed = false
    ∧ getsOf (scrapeTarget env client targetURL outputDir logFile index).events = [targetURL]
    ∧ (∀ err, clientGet env client index targetURL = .error err →
        writesOf (scrapeTarget env client targetURL outputDir logFile index).events
          = [(filepathJoin outputDir
                (stem index (ReplaceAll u.Host '.' '_') (formatStamp (env.now index))
                  ++ "_FAILED.txt"), bytesOf err)]
        ∧ logsOf (scrapeTarget env client targetURL outputDir logFile index).events
          = ["[ERR] Scanning: " ++ targetURL ++ " -> FAILED (Kaydedildi: "
              ++ filepathJoin outputDir
                (stem index (ReplaceAll u.Host '.' '_') (formatStamp (env.now index))
                  ++ "_FAILED.txt") ++ ")\n"])
    ∧ (∀ resp, clientGet env client index targetURL = .ok resp → resp.StatusCode ≠ 200 →
        writesOf (scrapeTarget env client targetURL outputDir logFile index).events
          = [(filepathJoin outputDir
                (stem index (ReplaceAll u.Host '.' '_') (formatStamp (env.now index))
                  ++ "_FAILED.txt"), bytesOf ("HTTP STATUS: " ++ sprintD resp.StatusCode))]
        ∧ logsOf (scrapeTarget env client targetURL outputDir logFile index).events
          = ["[ERR] Scanning: " ++ targetURL ++ " -> FAILED (HTTP "
              ++ sprintD resp.StatusCode ++ ")\n"])
    ∧ (∀ resp, clientGet env client index targetURL = .ok resp → resp.StatusCode = 204 →
        writesOf (scrapeTarget env client targetURL outputDir logFile index).events
          = [(filepathJoin outputDir
                (stem index (ReplaceAll u.Host '.' '_') (formatStamp (env.now index))
                  ++ "_FAILED.txt"), bytesOf "HTTP STATUS: 204")])
    ∧ (∀ resp err, clientGet env client index targetURL = .ok resp → resp.StatusCode = 200 →
        resp.Body = .error err →
        writesOf (scrapeTarget env client targetURL outputDir logFile index).events
          = [(filepathJoin outputDir
                (stem index (ReplaceAll u.Host '.' '_') (formatStamp (env.now index))
                  ++ "_FAILED.txt"), bytesOf "Response body okunamadı")]
        ∧ logsOf (scrapeTarget env client targetURL outputDir logFile index).events
          = ["[ERR] Scanning: " ++ targetURL ++ " -> FAILED (Body okunamadı)\n"])
    ∧ (∀ resp body, clientGet env client index targetURL = .ok resp → resp.StatusCode = 200 →
        resp.Body = .ok body →
        writesOf (scrapeTarget env client targetURL outputDir logFile index).events
          = [(filepathJoin outputDir
                (stem index (ReplaceAll u.Host '.' '_') (formatStamp (env.now index))
                  ++ ".html"), body)]
        ∧ logsOf (scrapeTarget env client targetURL outputDir logFile index).events
          = ["[INFO] Scanning: " ++ targetURL ++ " -> SUCCESS (Kaydedildi: "
              ++ filepathJoin outputDir
                (stem index (ReplaceAll u.Host '.' '_') (formatStamp (env.now index))
                  ++ ".html") ++ ")\n"]) := by
  refine ⟨?_, ?_, ?_, ?_, ?_, ?_, ?_⟩
  · unfold scrapeTarget
    simp only [hparse]
    split
    · rfl
    · split
      · rfl
      · split <;> rfl
  · unfold scrapeTarget
    simp only [hparse]
    split
    · rfl
    · split
      · rfl
      · split <;> rfl
  · intro err hget
    simp [scrapeTarget, hparse, hget, writesOf, logsOf, logEntry, String.ext_iff]
  · intro resp hget hstatus
    simp [scrapeTarget, hparse, hget, hstatus, writesOf, logsOf, logEntry, String.ext_iff]
  · intro resp hget hstatus
    simp [scrapeTarget, hparse, hget, hstatus, writesOf, String.ext_iff]
    rfl
  · intro resp err hget hstatus hbody
    simp [scrapeTarget, hparse, hget, hstatus, hbody, writesOf, logsOf, logEntry, String.ext_iff]
  · intro resp body hget hstatus hbody
    simp [scrapeTarget, hparse, hget, hstatus, hbody, writesOf, logsOf, logEntry, String.ext_iff]

theorem scrapeTarget_outcomes_witness :
    (demoEnv demoContent).urlParse "http://example.onion/a" = .ok ⟨"example.onion"⟩
    ∧ writesOf (scrapeTarget (demoEnv demoContent) (torClient torProxyAddr) "http://example.onion/a"
        outputDir logFileName 1).events
      = [("output/01_example_onion_20261104_101530.html", helloBytes)]
    ∧ logsOf (scrapeTarget (demoEnv demoContent) (torClient torProxyAddr) "http://example.onion/a"
        outputDir logFileName 1).events
      = ["[INFO] Scanning: http://example.onion/a -> SUCCESS (Kaydedildi: "
          ++ "output/01_example_onion_20261104_101530.html)\n"] :=
  ⟨rfl,
    ((scrapeTarget_outcomes (demoEnv demoContent) (torClient torProxyAddr) "http://example.onion/a"
      outputDir logFileName 1 ⟨"example.onion"⟩ rfl).2.2.2.2.2.2
        ⟨200, .ok helloBytes⟩ helloBytes rfl rfl rfl).1,
    ((scrapeTarget_outcomes (demoEnv demoContent) (torClient torProxyAddr) "http://example.onion/a"
      outputDir logFileName 1 ⟨"example.onion"⟩ rfl).2.2.2.2.2.2
        ⟨200, .ok helloBytes⟩ helloBytes rfl rfl rfl).2⟩

/-! ### The whole run -/

/-- The run of `main` after a successful start-up: the start-up calls, the loop, and
then either the closing lines (exit code 0) or, after a panic, exit code 2. -/
theorem main_started (env : Env) (targets : List String)
    (hargs : 2 ≤ env.Args.length)
    (hread : readTargetsFile env (osArg env 1) = .ok targets)
    (hsocks : env.socks5 torProxyAddr = none)
    (hdial : env.dial "check.torproject.org:80" = none)
    (hcreate : env.create logFileName = none) :
    main env =
      if (scrapeLoop env (torClient torProxyAddr) outputDir logFileName 0 targets).crashed then
        ⟨startEvents env targets
          ++ (scrapeLoop env (torClient torProxyAddr) outputDir logFileName 0 targets).events
          ++ [.logClose logFileName], 2⟩
      else
        ⟨startEvents env targets
          ++ (scrapeLoop env (torClient torProxyAddr) outputDir logFileName 0 targets).events
          ++ endEvents, 0⟩ := by
  have h : ¬ env.Args.length < 2 := by omega
  simp only [main, h, if_false, hread, createTorClient, hsocks, hdial, hcreate]
  rfl

/-- Every run of `main` that does not get through the start-up ends with exit code
1 without a GET, a write or a log entry; every other run is the one of
`main_started`. -/
theorem main_cases (env : Env) :
    ((main env).exitCode = 1 ∧ getsOf (main env).trace = [] ∧ writesOf (main env).trace = []
        ∧ logsOf (main env).trace = [])
    ∨ ∃ targets, 2 ≤ env.Args.length
        ∧ readTargetsFile env (osArg env 1) = .ok targets
        ∧ env.socks5 torProxyAddr = none
        ∧ env.dial "check.torproject.org:80" = none
        ∧ env.create logFileName = none := by
  by_cases hargs : env.Args.length < 2
  · left
    simp [main, hargs, getsOf, writesOf, logsOf]
  · cases hread : readTargetsFile env (osArg env 1) with
    | error err =>
      left
      simp [main, hargs, hread, getsOf, writesOf, logsOf]
    | ok targets =>
      cases hsocks : env.socks5 torProxyAddr with
      | some err =>
        left
        simp [main, hargs, hread, createTorClient, hsocks, getsOf, writesOf, logsOf]
      | none =>
        cases hdial : env.dial "check.torproject.org:80" with
        | some err =>
          left
          simp [main, hargs, hread, createTorClient, hsocks, hdial, getsOf, writesOf, logsOf]
        | none =>
          cases hcreate : env.create logFileName with
          | some err =>
            left
            simp [main, hargs, hread, createTorClient, hsocks, hdial, hcreate, getsOf, writesOf,
              logsOf]
          | none =>
            right
            exact ⟨targets, by omega, rfl, rfl, rfl, rfl⟩

/-- C2: when the health probe (the dial to `check.torproject.org:80` through the
proxy) fails, `createTorClient` returns an error and no client, and `main` exits
with code 1 without a call of `os.MkdirAll`, of `os.Create`, of `client.Get` or of
`os.WriteFile` and without a log entry, whatever the input file holds; when the run
reaches the probe, all it does is dial and print the diagnostic. -/
theorem probe_failure_aborts (env : Env) (perr : GoError)
    (hprobe : env.dial "check.torproject.org:80" = some perr) :
    (∀ addr, ∃ msg, (createTorClient env addr).2 = .error msg)
    ∧ (main env).exitCode = 1
    ∧ mkdirsOf (main env).trace = []
    ∧ createsOf (main env).trace = []
    ∧ getsOf (main env).trace = []
    ∧ writesOf (main env).trace = []
    ∧ logsOf (main env).trace = []
    ∧ (∀ targets, 2 ≤ env.Args.length →
        readTargetsFile env (osArg env 1) = .ok targets →
        env.socks5 torProxyAddr = none →
        (main env).trace = [.dial "check.torproject.org:80",
          .print ("KRİTİK HATA: Tor proxy çalışıyor fakat dış bağlantı başarısız: "
            ++ perr ++ "\n")]) := by
  refine ⟨?_, ?_⟩
  · intro addr
    cases hsocks : env.socks5 addr with
    | some err =>
      exact ⟨"SOCKS5 dialer oluşturulamadı: " ++ err, by simp [createTorClient, hsocks]⟩
    | none =>
      exact ⟨"Tor proxy çalışıyor fakat dış bağlantı başarısız: " ++ perr,
        by simp [createTorClient, hsocks, hprobe]⟩
  · by_cases hargs : env.Args.length < 2
    · simp [main, hargs, getsOf, writesOf, logsOf, mkdirsOf, createsOf]
    · cases hread : readTargetsFile env (osArg env 1) with
      | error err =>
        simp [main, hargs, hread, getsOf, writesOf, logsOf, mkdirsOf, createsOf]
      | ok targets =>
        cases hsocks : env.socks5 torProxyAddr with
        | some err =>
          simp [main, hargs, hread, createTorClient, hsocks, getsOf, writesOf, logsOf,
            mkdirsOf, createsOf]
        | none =>
          simp [main, hargs, hread, createTorClient, hsocks, hprobe, getsOf, writesOf, logsOf,
            mkdirsOf, createsOf, String.ext_iff]

theorem probe_failure_aborts_witness :
    ({ demoEnv demoContent with dial := fun _ => some "i/o timeout" } : Env).dial
        "check.torproject.org:80" = some "i/o timeout"
    ∧ (main { demoEnv demoContent with dial := fun _ => some "i/o timeout" }).exitCode = 1
    ∧ getsOf (main { demoEnv demoContent with dial := fun _ => some "i/o timeout" }).trace = [] :=
  ⟨rfl,
    (probe_failure_aborts { demoEnv demoContent with dial := fun _ => some "i/o timeout" }
      "i/o timeout" rfl).2.1,
    (probe_failure_aborts { demoEnv demoContent with dial := fun _ => some "i/o timeout" }
      "i/o timeout" rfl).2.2.2.2.1⟩

/-- The run of `main` when the start-up succeeds and every target parses: `client.Get`
is called once per target, in list order; the artifacts are written in list order, the
one at position `k` (from 1) with index `k`; the log gets its first line and one
entry per target; the exit code is 0. -/
theorem main_all_parsed (env : Env) (targets : List String)
    (hargs : 2 ≤ env.Args.length)
    (hread : readTargetsFile env (osArg env 1) = .ok targets)
    (hsocks : env.socks5 torProxyAddr = none)
    (hdial : env.dial "check.torproject.org:80" = none)
    (hcreate : env.create logFileName = none)
    (hparse : ∀ t ∈ targets, ∃ u, env.urlParse t = .ok u) :
    (main env).exitCode = 0
    ∧ getsOf (main env).trace = targets
    ∧ pathsOf (main env).trace
        = (List.enumFrom 1 targets).map
            (fun kt => artifactPath env (torClient torProxyAddr) outputDir kt.1 kt.2)
    ∧ (logsOf (main env).trace).length = targets.length + 1 := by
  obtain ⟨h1, h2, h3, h4⟩ :=
    scrapeLoop_parsed env (torClient torProxyAddr) outputDir logFileName targets 0 hparse
  have hm := main_started env targets hargs hread hsocks hdial hcreate
  simp only [h1, Bool.false_eq_true, if_false] at hm
  rw [hm]
  refine ⟨rfl, ?_, ?_, ?_⟩
  · rw [getsOf_append, getsOf_append, h2]
    simp [startEvents, endEvents, getsOf]
  · rw [pathsOf_append, pathsOf_append, h3]
    simp [startEvents, endEvents, pathsOf, writesOf]
  · rw [logsOf_append, logsOf_append, List.length_append, List.length_append, h4]
    simp [startEvents, endEvents, logsOf]
    omega

/-- C3, at the input that breaks it: with the target list `[":foo",
"http://example.onion/a"]` the first call of `scrapeTarget` panics on the `nil` URL;
the run ends with exit code 2, no GET was sent, no artifact was written, and the
log holds only its first line: the second target is never processed. -/
theorem main_unparsed_target_aborts :
    readTargetsFile (demoEnv ":foo\nhttp://example.onion/a\n") "targets.yaml"
      = .ok [":foo", "http://example.onion/a"]
    ∧ (main (demoEnv ":foo\nhttp://example.onion/a\n")).exitCode = 2
    ∧ getsOf (main (demoEnv ":foo\nhttp://example.onion/a\n")).trace = []
    ∧ writesOf (main (demoEnv ":foo\nhttp://example.onion/a\n")).trace = []
    ∧ logsOf (main (demoEnv ":foo\nhttp://example.onion/a\n")).trace
        = ["Tarama başlatıldı: 2026-11-04T10:15:30Z\n"] :=
  ⟨rfl, rfl, rfl, rfl, rfl⟩

/-- C4, at the input that breaks it: `url.Parse` rejects `":foo"`, and the call of
`scrapeTarget` for it panics at `u.Host`: no GET is attempted, no artifact is
written and no log entry is made. -/
theorem scrapeTarget_unparsed_example :
    (demoEnv demoContent).urlParse ":foo" = .error "parse \":foo\": missing protocol scheme"
    ∧ (scrapeTarget (demoEnv demoContent) (torClient torProxyAddr) ":foo" outputDir logFileName 1).crashed = true
    ∧ getsOf (scrapeTarget (demoEnv demoContent) (torClient torProxyAddr) ":foo" outputDir logFileName 1).events
        = []
    ∧ writesOf (scrapeTarget (demoEnv demoContent) (torClient torProxyAddr) ":foo" outputDir logFileName 1).events
        = []
    ∧ logsOf (scrapeTarget (demoEnv demoContent) (torClient torProxyAddr) ":foo" outputDir logFileName 1).events
        = [] :=
  ⟨rfl, rfl, rfl, rfl, rfl⟩

/-- C9, at the input that breaks it: when `os.MkdirAll` fails, `main` drops the error
and goes on: it creates the log file, calls `client.Get` for both targets, calls
`os.WriteFile` for both, and exits with code 0. -/
theorem main_mkdir_failure_ignored :
    ({ demoEnv demoContent with mkdirAll := fun _ => some "mkdir output: not a directory" }
        : Env).mkdirAll outputDir = some "mkdir output: not a directory"
    ∧ (main { demoEnv demoContent with
          mkdirAll := fun _ => some "mkdir output: not a directory" }).exitCode = 0
    ∧ getsOf (main { demoEnv demoContent with
          mkdirAll := fun _ => some "mkdir output: not a directory" }).trace
        = ["http://example.onion/a", "http://example.onion/b"]
    ∧ pathsOf (main { demoEnv demoContent with
          mkdirAll := fun _ => some "mkdir output: not a directory" }).trace
        = ["output/01_example_onion_20261104_101530.html",
           "output/02_example_onion_20261104_101530_FAILED.txt"]
    ∧ createsOf (main { demoEnv demoContent with
          mkdirAll := fun _ => some "mkdir output: not a directory" }).trace
        = ["scan_report.log"] :=
  ⟨rfl, rfl, rfl, rfl, rfl⟩

/-- The four start-up failures `main` checks: an input file that cannot be read, a
proxy dialer that cannot be built, a failed health probe and a log file that cannot
be created each end the run with a printed diagnostic and exit code 1, without a
call of `client.Get`. -/
theorem main_checked_failures (env : Env) (hargs : 2 ≤ env.Args.length) :
    (∀ err, readTargetsFile env (osArg env 1) = .error err →
      (main env).exitCode = 1 ∧ getsOf (main env).trace = []
        ∧ printsOf (main env).trace = ["HATA: " ++ err ++ "\n"])
    ∧ (∀ targets err, readTargetsFile env (osArg env 1) = .ok targets →
      env.socks5 torProxyAddr = some err →
      (main env).exitCode = 1 ∧ getsOf (main env).trace = []
        ∧ printsOf (main env).trace
            = ["KRİTİK HATA: SOCKS5 dialer oluşturulamadı: " ++ err ++ "\n"])
    ∧ (∀ targets err, readTargetsFile env (osArg env 1) = .ok targets →
      env.socks5 torProxyAddr = none → env.dial "check.torproject.org:80" = some err →
      (main env).exitCode = 1 ∧ getsOf (main env).trace = []
        ∧ printsOf (main env).trace
            = ["KRİTİK HATA: Tor proxy çalışıyor fakat dış bağlantı başarısız: " ++ err ++ "\n"])
    ∧ (∀ targets err, readTargetsFile env (osArg env 1) = .ok targets →
      env.socks5 torProxyAddr = none → env.dial "check.torproject.org:80" = none →
      env.create logFileName = some err →
      (main env).exitCode = 1 ∧ getsOf (main env).trace = []
        ∧ printsOf (main env).trace = ["Log dosyası oluşturulamadı\n"]) := by
  have h : ¬ env.Args.length < 2 := by omega
  refine ⟨?_, ?_, ?_, ?_⟩
  · intro err hread
    simp [main, h, hread, getsOf, printsOf]
  · intro targets err hread hsocks
    simp [main, h, hread, createTorClient, hsocks, getsOf, printsOf, String.ext_iff]
  · intro targets err hread hsocks hdial
    simp [main, h, hread, createTorClient, hsocks, hdial, getsOf, printsOf, String.ext_iff]
  · intro targets err hread hsocks hdial hcreate
    simp [main, h, hread, createTorClient, hsocks, hdial, hcreate, getsOf, printsOf]

theorem filepathJoin_injective (dir a b : String) (h : filepathJoin dir a = filepathJoin dir b) :
    a = b := by
  have h2 := congrArg String.data h
  simp only [filepathJoin, String.data_append, List.append_assoc] at h2
  exact String.ext (List.append_cancel_left (List.append_cancel_left h2))

theorem scrapeTarget_paths (env : Env) (client : Client)
    (targetURL outputDir logFile : String) (index : Nat) :
    pathsOf (scrapeTarget env client targetURL outputDir logFile index).events = []
    ∨ ∃ b t s, pathsOf (scrapeTarget env client targetURL outputDir logFile index).events
        = [filepathJoin outputDir (stem index b t ++ s)] := by
  cases hparse : env.urlParse targetURL with
  | error err =>
    left
    rw [scrapeTarget_unparsed env client targetURL outputDir logFile index err hparse]
    rfl
  | ok u =>
    right
    exact ⟨_, _, _, (scrapeTarget_parsed env client targetURL outputDir logFile index u hparse).2.2.1⟩

theorem scrapeLoop_paths (env : Env) (client : Client) (outputDir logFile : String)
    (targets : List String) (i : Nat) :
    (pathsOf (scrapeLoop env client outputDir logFile i targets).events).Nodup
    ∧ ∀ p ∈ pathsOf (scrapeLoop env client outputDir logFile i targets).events,
        ∃ k b t s, i < k ∧ p = filepathJoin outputDir (stem k b t ++ s) := by
  induction targets generalizing i with
  | nil => simp [scrapeLoop, pathsOf, writesOf]
  | cons target rest ih =>
    obtain ⟨hn, hk⟩ := ih (i + 1)
    have hone := scrapeTarget_paths env client target outputDir logFile (i + 1)
    simp only [scrapeLoop]
    split
    · rcases hone with h | ⟨b, t, s, h⟩
      · rw [h]; simp
      · rw [h]
        refine ⟨by simp, ?_⟩
        intro p hp
        simp only [List.mem_singleton] at hp
        exact ⟨i + 1, b, t, s, by omega, hp⟩
    · rw [pathsOf_append]
      rcases hone with h | ⟨b, t, s, h⟩
      · rw [h]
        refine ⟨by simpa using hn, ?_⟩
        intro p hp
        obtain ⟨k, b, t, s, hlt, rfl⟩ := hk p (by simpa using hp)
        exact ⟨k, b, t, s, by omega, rfl⟩
      · rw [h]
        refine ⟨?_, ?_⟩
        · simp only [List.singleton_append, List.nodup_cons]
          refine ⟨?_, hn⟩
          intro hmem
          obtain ⟨k, b2, t2, s2, hlt, heq⟩ := hk _ hmem
          have := stem_injective _ _ _ _ _ _ _ _ (filepathJoin_injective _ _ _ heq)
          omega
        · intro p hp
          simp only [List.singleton_append, List.mem_cons] at hp
          rcases hp with rfl | hp
          · exact ⟨i + 1, b, t, s, by omega, rfl⟩
          · obtain ⟨k, b, t, s, hlt, rfl⟩ := hk p hp
            exact ⟨k, b, t, s, by omega, rfl⟩

/-- C7: artifact names are unique within a run.  Two names built for different indices
differ, whatever the hosts, the time stamps and the suffixes are, also for indices of
three digits and more; and in every run of `main` the paths given to `os.WriteFile`
are pairwise distinct. -/
theorem artifact_names_unique :
    (∀ (dir : String) (i j : Nat) (b1 b2 t1 t2 s1 s2 : String), i ≠ j →
      filepathJoin dir (stem i b1 t1 ++ s1) ≠ filepathJoin dir (stem j b2 t2 ++ s2))
    ∧ (∀ env : Env, (pathsOf (main env).trace).Nodup) := by
  refine ⟨?_, ?_⟩
  · intro dir i j b1 b2 t1 t2 s1 s2 hij h
    exact hij (stem_injective _ _ _ _ _ _ _ _ (filepathJoin_injective _ _ _ h))
  · intro env
    rcases main_cases env with ⟨_, _, hw, _⟩ | ⟨targets, hargs, hread, hsocks, hdial, hcreate⟩
    · simp [pathsOf, hw]
    · rw [main_started env targets hargs hread hsocks hdial hcreate]
      have hn := (scrapeLoop_paths env (torClient torProxyAddr) outputDir logFileName targets 0).1
      split
      · simp only [pathsOf_append]
        simpa [startEvents, pathsOf, writesOf] using hn
      · simp only [pathsOf_append]
        simpa [startEvents, endEvents, pathsOf, writesOf] using hn

theorem artifact_names_unique_witness :
    filepathJoin "output" (stem 1 "example_onion" "20261104_101530" ++ ".html")
      ≠ filepathJoin "output" (stem 100 "example_onion" "20261104_101530" ++ ".html")
    ∧ (pathsOf (main (demoEnv demoContent)).trace).Nodup :=
  ⟨artifact_names_unique.1 "output" 1 100 _ _ _ _ _ _ (by decide),
    artifact_names_unique.2 (demoEnv demoContent)⟩

/-- C8, as amended: within one run, for positions `i < j` with `j` at most 99, the
artifact name of position `i` sorts strictly before the one of position `j` in
byte-wise lexical order, whatever the hosts, the time stamps and the suffixes are. -/
theorem lexical_order_two_digits (i j : Nat) (b1 b2 t1 t2 s1 s2 : String)
    (hij : i < j) (hj : j ≤ 99) :
    lexLt (stem i b1 t1 ++ s1).data (stem j b2 t2 ++ s2).data = true := by
  simp only [stem, String.data_append, List.append_assoc]
  exact lexLt_sprint02d i j hij (by omega) _ _

theorem lexical_order_two_digits_witness :
    1 < 2 ∧ 2 ≤ 99
    ∧ lexLt (stem 1 "b_onion" (formatStamp demoTime) ++ ".html").data
        (stem 2 "a_onion" (formatStamp demoTime) ++ "_FAILED.txt").data = true :=
  ⟨by decide, by decide, lexical_order_two_digits 1 2 _ _ _ _ _ _ (by decide) (by decide)⟩

/-- C8 fails as stated.  In one run, position 99 is processed before position 100, yet
the name of position 99 does not sort before the name of position 100 (`"99_"`
against `"100_"`).  Across two runs on the same day, position 2 of a run at 10:15:30
is processed before position 1 of a run at 11:15:30, yet its name does not sort
before the other (`"02_"` against `"01_"`). -/
theorem lexical_order_counterexample :
    lexLt (stem 99 "example_onion" (formatStamp ⟨2026, 11, 4, 10, 15, 30, 0⟩) ++ ".html").data
        (stem 100 "example_onion" (formatStamp ⟨2026, 11, 4, 10, 15, 31, 0⟩) ++ ".html").data
      = false
    ∧ lexLt (stem 2 "example_onion" (formatStamp ⟨2026, 11, 4, 10, 15, 30, 0⟩) ++ ".html").data
        (stem 1 "example_onion" (formatStamp ⟨2026, 11, 4, 11, 15, 30, 0⟩) ++ ".html").data
      = false :=
  ⟨by decide, by decide⟩

/-- C6: when a target ends in the success outcome (the GET returned, the status is 200
and the body was read), the one call of `os.WriteFile` is for `<stem>.html` and its
data are exactly the bytes of the response body: the same bytes, the same length (five
bytes for a five-byte body, none for an empty body). -/
theorem success_writes_body (env : Env) (client : Client)
    (targetURL outputDir logFile : String) (index : Nat) (resp : Response) (body : Bytes)
    (hget : clientGet env client index targetURL = .ok resp)
    (hstatus : resp.StatusCode = 200) (hbody : resp.Body = .ok body) :
    (∃ u, env.urlParse targetURL = .ok u
      ∧ writesOf (scrapeTarget env client targetURL outputDir logFile index).events
          = [(filepathJoin outputDir
                (stem index (ReplaceAll u.Host '.' '_') (formatStamp (env.now index))
                  ++ ".html"), body)])
    ∧ (writesOf (scrapeTarget env client targetURL outputDir logFile index).events).map
          (fun w => w.2) = [body]
    ∧ (writesOf (scrapeTarget env client targetURL outputDir logFile index).events).map
          (fun w => w.2.length) = [body.length] := by
  cases hparse : env.urlParse targetURL with
  | error err => simp [clientGet, hparse] at hget
  | ok u =>
    have h : writesOf (scrapeTarget env client targetURL outputDir logFile index).events
        = [(filepathJoin outputDir
              (stem index (ReplaceAll u.Host '.' '_') (formatStamp (env.now index))
                ++ ".html"), body)] := by
      simp [scrapeTarget, hparse, hget, hstatus, hbody, writesOf, logEntry]
    exact ⟨⟨u, rfl, h⟩, by rw [h]; rfl, by rw [h]; rfl⟩

theorem success_writes_body_witness :
    clientGet (demoEnv demoContent) (torClient torProxyAddr) 1 "http://example.onion/a"
      = .ok ⟨200, .ok helloBytes⟩
    ∧ (writesOf (scrapeTarget (demoEnv demoContent) (torClient torProxyAddr) "http://example.onion/a"
        outputDir logFileName 1).events).map (fun w => w.2) = [[104, 101, 108, 108, 111]]
    ∧ (writesOf (scrapeTarget (demoEnv demoContent) (torClient torProxyAddr) "http://example.onion/a"
        outputDir logFileName 1).events).map (fun w => w.2.length) = [5]
    ∧ (writesOf (scrapeTarget
        { demoEnv demoContent with roundTrip := fun _ _ => .ok ⟨200, .ok []⟩ } (torClient torProxyAddr)
        "http://example.onion/b" outputDir logFileName 2).events).map (fun w => w.2) = [[]] :=
  ⟨rfl,
    (success_writes_body (demoEnv demoContent) (torClient torProxyAddr) "http://example.onion/a" outputDir
      logFileName 1 ⟨200, .ok helloBytes⟩ helloBytes rfl rfl rfl).2.1,
    (success_writes_body (demoEnv demoContent) (torClient torProxyAddr) "http://example.onion/a" outputDir
      logFileName 1 ⟨200, .ok helloBytes⟩ helloBytes rfl rfl rfl).2.2,
    (success_writes_body { demoEnv demoContent with roundTrip := fun _ _ => .ok ⟨200, .ok []⟩ }
      (torClient torProxyAddr) "http://example.onion/b" outputDir logFileName 2 ⟨200, .ok []⟩ [] rfl rfl
      rfl).2.1⟩

/-- C10, as amended: for the target list `["http://example.onion/a",
"http://example.onion/b"]` (both URLs have host `example.onion`), the artifact of the
first target is `output/01_example_onion_<ts>.html` on success and
`output/01_example_onion_<ts>_FAILED.txt` otherwise, and the one of the second target
is `output/02_example_onion_<ts>.html` or `output/02_example_onion_<ts>_FAILED.txt`,
`<ts>` being the time stamp of the attempt: the path of the URL is no part of the
name. -/
theorem example_artifact_names (env : Env)
    (hargs : 2 ≤ env.Args.length)
    (hread : readTargetsFile env (osArg env 1)
      = .ok ["http://example.onion/a", "http://example.onion/b"])
    (hsocks : env.socks5 torProxyAddr = none)
    (hdial : env.dial "check.torproject.org:80" = none)
    (hcreate : env.create logFileName = none)
    (ha : env.urlParse "http://example.onion/a" = .ok ⟨"example.onion"⟩)
    (hb : env.urlParse "http://example.onion/b" = .ok ⟨"example.onion"⟩) :
    pathsOf (main env).trace
      = ["output/01_example_onion_" ++ formatStamp (env.now 1)
            ++ (if isSuccess (env.roundTrip 1 "http://example.onion/a") then ".html"
                else "_FAILED.txt"),
         "output/02_example_onion_" ++ formatStamp (env.now 2)
            ++ (if isSuccess (env.roundTrip 2 "http://example.onion/b") then ".html"
                else "_FAILED.txt")] := by
  have hparse : ∀ t ∈ ["http://example.onion/a", "http://example.onion/b"],
      ∃ u, env.urlParse t = .ok u := by
    intro t ht
    simp only [List.mem_cons, List.mem_singleton, List.not_mem_nil, or_false] at ht
    rcases ht with rfl | rfl
    · exact ⟨_, ha⟩
    · exact ⟨_, hb⟩
  rw [(main_all_parsed env _ hargs hread hsocks hdial hcreate hparse).2.2.1]
  simp only [List.enumFrom_cons, List.enumFrom_nil, List.map_cons, List.map_nil, artifactPath,
    ha, hb, clientGet, suffixOf]
  simp only [List.cons.injEq, and_true]
  constructor
  · apply String.ext
    simp only [filepathJoin, stem, String.data_append, List.append_assoc]
    rfl
  · apply String.ext
    simp only [filepathJoin, stem, String.data_append, List.append_assoc]
    rfl

theorem example_artifact_names_witness :
    readTargetsFile (demoEnv demoContent) (osArg (demoEnv demoContent) 1)
      = .ok ["http://example.onion/a", "http://example.onion/b"]
    ∧ pathsOf (main (demoEnv demoContent)).trace
      = ["output/01_example_onion_20261104_101530.html",
         "output/02_example_onion_20261104_101530_FAILED.txt"] :=
  ⟨rfl, example_artifact_names (demoEnv demoContent) (by decide) rfl rfl rfl rfl rfl rfl⟩

/-- C10 fails as stated.  With the target list `["http://example.onion/a",
"http://example.onion/b"]`, the first target fetched with status 200 and the second with
status 404, both at `20261104_101530`, the artifacts are
`01_example_onion_20261104_101530.html` and `02_example_onion_20261104_101530_FAILED.txt`,
not `01_example_onion_a_20261104_101530.html` and
`02_example_onion_b_20261104_101530_FAILED.txt`. -/
theorem example_artifact_names_counterexample :
    readTargetsFile (demoEnv demoContent) "targets.yaml"
      = .ok ["http://example.onion/a", "http://example.onion/b"]
    ∧ pathsOf (main (demoEnv demoContent)).trace
      = ["output/01_example_onion_20261104_101530.html",
         "output/02_example_onion_20261104_101530_FAILED.txt"]
    ∧ pathsOf (main (demoEnv demoContent)).trace
      ≠ ["output/01_example_onion_a_20261104_101530.html",
         "output/02_example_onion_b_20261104_101530_FAILED.txt"] :=
  ⟨rfl, rfl, by rw [show pathsOf (main (demoEnv demoContent)).trace
      = ["output/01_example_onion_20261104_101530.html",
         "output/02_example_onion_20261104_101530_FAILED.txt"] from rfl]; decide⟩

end TorScraper
